import Mathlib

/-!
# Pelican origin broker client: forced-route proxy and reverse-connection dispatcher

A shallow embedding of `origin_ui/broker_client.go`:

* `getTransport`  : the lazily built, process-wide HTTP transport whose dial step
  always targets the local xrootd port;
* `proxyOrigin`   : the HTTP handler relaying one request to the local backend;
* `LaunchBrokerListener` : the registration loop and the fan-in task that turns
  every listener received from the broker into a one-shot HTTP server.

Package-level variables, the response writer, the log and the goroutines are
modelled by explicit state.  Collaborators living outside the file
(`config.GetTransport`, `param.*`, `broker.LaunchRequestMonitor`,
`transport.RoundTrip`, `srv.Serve`) are parameters or scripted inputs.
-/

namespace Pelican

/-! ## Go values -/

/-- Go error values that matter here.  `wrap` is an error whose `Unwrap` returns
`inner` (for instance the `*net.OpError` around `net.ErrClosed`). -/
inductive GoError where
  | ErrClosed
  | ErrServerClosed
  | other (msg : String)
  | wrap (msg : String) (inner : GoError)
deriving DecidableEq, Repr

/-- Walk of the `Unwrap` chain performed by `errors.Is` for a non-nil error. -/
def unwrapChainHas (target : GoError) : GoError → Bool
  | .wrap m inner => decide (GoError.wrap m inner = target) || unwrapChainHas target inner
  | e => decide (e = target)

/-- Go `errors.Is(err, target)`; an `error` interface value is an `Option`, nil being `none`. -/
def errorsIs (err target : Option GoError) : Bool :=
  match err, target with
  | some e, some t => unwrapChainHas t e
  | none, none => true
  | _, _ => false

/-- Go `strconv.Itoa`: decimal rendering of an `int`. -/
def Itoa : Int → String
  | .ofNat m => Nat.repr m
  | .negSucc m => "-" ++ Nat.repr (m + 1)

/-- Bytes of a Go string literal converted with `[]byte(...)`. -/
def bytesOf (s : String) : List UInt8 := s.toUTF8.data.toList

/-- Log levels of logrus used in the file. -/
inductive Level where
  | debug | info | warning | error
deriving DecidableEq, Repr

/-- One log call: level, fixed message, and the error value printed after it (if any). -/
structure LogEntry where
  level : Level
  msg : String
  err : Option GoError
deriving DecidableEq, Repr

/-- Configuration values read through `param.Server_Hostname.GetString()` and
`param.Xrootd_Port.GetInt()`. -/
structure Params where
  Server_Hostname : String
  Xrootd_Port : Int
deriving DecidableEq, Repr

/-! ## Forced-route transport -/

/-- Arguments with which `net.Dialer.DialContext` is finally invoked. -/
structure DialCall where
  ctx : Nat
  network : String
  address : String
deriving DecidableEq, Repr

/-- An `http.Transport` value: the `DialContext` field and, in `base`, all the others.
The dial function receives the configuration in force when it is called, since the
closure of the source reads `param.Xrootd_Port` at dial time. -/
structure Transport (α : Type) where
  base : α
  DialContext : Params → Nat → String → String → DialCall

/-- The closure assigned to `transport.DialContext` inside `getTransport`. -/
def forcedDial (cfg : Params) (ctx : Nat) (_network _addr : String) : DialCall :=
  { ctx := ctx, network := "tcp", address := "localhost:" ++ Itoa cfg.Xrootd_Port }

/-- Package-level state of `origin_ui`: the allocated `http.Transport` objects (a
pointer is an index into `heap`), the variable `transport` (nil is `none`) and whether
`onceTransport` has already run its function. -/
structure Pkg (α : Type) where
  heap : List (Transport α)
  transport : Option Nat
  onceTransport : Bool

/-- Zero values of the package-level variables at program start. -/
def Pkg.init (α : Type) : Pkg α :=
  { heap := [], transport := none, onceTransport := false }

/-- Apply `f` to the element at index `p`. -/
def modifyAt {β : Type} (f : β → β) : Nat → List β → List β
  | _, [] => []
  | 0, x :: xs => f x :: xs
  | p + 1, x :: xs => x :: modifyAt f p xs

/-- Dereference of a `*http.Transport`. -/
def Pkg.deref {α : Type} (s : Pkg α) (ptr : Option Nat) : Option (Transport α) :=
  match ptr with
  | none => none
  | some p => s.heap.get? p

/-- Body of the function passed to `onceTransport.Do`. `dflt` is the value
`*config.GetTransport()`. -/
def buildTransport {α : Type} (dflt : Transport α) (s : Pkg α) : Pkg α :=
  -- var copyTransport http.Transport = *config.GetTransport()
  let copyTransport := dflt
  -- transport = &copyTransport
  let p := s.heap.length
  let s1 : Pkg α := { s with heap := s.heap ++ [copyTransport], transport := some p }
  -- transport.DialContext = func(ctx, _, _) ...
  match s1.transport with
  | none => s1
  | some q => { s1 with heap := modifyAt (fun t => { t with DialContext := forcedDial }) q s1.heap }

/-- Go `getTransport()`: returns the pointer and the new package state. -/
def getTransport {α : Type} (dflt : Transport α) (s : Pkg α) : Option Nat × Pkg α :=
  let s1 := if s.onceTransport then s
            else { buildTransport dflt s with onceTransport := true }
  (s1.transport, s1)

/-- The two ways the file calls the getter: a bare `getTransport()` and the statement
`transport = getTransport()` of `proxyOrigin`. -/
inductive Call where
  | get
  | assign
deriving DecidableEq, Repr

/-- One call of the getter, in either form. -/
def runCall {α : Type} (dflt : Transport α) (s : Pkg α) : Call → Option Nat × Pkg α
  | .get => getTransport dflt s
  | .assign =>
    let r := getTransport dflt s
    (r.1, { r.2 with transport := r.1 })

/-- A sequence of calls: the pointers returned, in order, and the final state. -/
def runCalls {α : Type} (dflt : Transport α) (s : Pkg α) : List Call → List (Option Nat) × Pkg α
  | [] => ([], s)
  | c :: cs =>
    let r := runCall dflt s c
    let rest := runCalls dflt r.2 cs
    (r.1 :: rest.1, rest.2)

/-- The package state once the transport has been built from the initial state. -/
def builtPkg {α : Type} (dflt : Transport α) : Pkg α :=
  { heap := [{ dflt with DialContext := forcedDial }], transport := some 0,
    onceTransport := true }

/-! ## HTTP values -/

/-- Go `http.Header`, a map from header name to its values; names are kept in the
canonical form in which `net/http` stores them. -/
abbrev Header := List (String × List String)

/-- Values stored under a name (`h[name]`). -/
def Header.values (h : Header) (k : String) : List String :=
  (h.lookup k).getD []

/-- Go `Header.Add`: append `v` to the values stored under `k`. -/
def Header.Add : Header → String → String → Header
  | [], k, v => [(k, [v])]
  | (k0, vs) :: rest, k, v =>
    if k0 = k then (k0, vs ++ [v]) :: rest else (k0, vs) :: Header.Add rest k v

/-- Modelled from the spec: `utils.CopyHeader(dst, src)` of the repository, which lives
in another package; it adds every value of every header of `src` to `dst`. -/
def CopyHeader (dst src : Header) : Header :=
  src.foldl (fun d kv => kv.2.foldl (fun d1 v => Header.Add d1 kv.1 v) d) dst

/-- Go `url.URL`. -/
structure URL where
  Scheme : String
  Opaque : String
  User : Option (String × Option String)
  Host : String
  Path : String
  RawPath : String
  OmitHost : Bool
  ForceQuery : Bool
  RawQuery : String
  Fragment : String
  RawFragment : String
deriving DecidableEq, Repr

/-- Go `http.Request`, as received by a server handler. -/
structure Request where
  Method : String
  URL : URL
  Proto : String
  Header : Header
  Body : List UInt8
  ContentLength : Int
  Host : String
  RemoteAddr : String
  RequestURI : String
deriving DecidableEq, Repr

/-- Response body stream: the chunks successive `Read` calls yield, the error that
ends the stream (`none` is `io.EOF`), and whether `Close` was called. -/
structure Body where
  chunks : List (List UInt8)
  readErr : Option GoError
  closed : Bool
deriving DecidableEq, Repr

/-- All bytes of a body stream. -/
def Body.bytes (b : Body) : List UInt8 := b.chunks.flatten

/-- Go `http.Response` as returned by `RoundTrip`. -/
structure Response where
  StatusCode : Int
  Header : Header
  Body : Body
deriving DecidableEq, Repr

/-- Go `http.ResponseWriter` of the server. `header` is the map returned by
`Header()`; `status` and `sentHeader` are what the first `WriteHeader` committed;
`body` holds the bytes passed to `Write`, in order; `writeResults` are the errors
the connection will answer to the coming `Write` calls (none left: success). -/
structure ResponseWriter where
  header : Header
  wroteHeader : Bool
  status : Int
  sentHeader : Header
  body : List UInt8
  writeResults : List (Option GoError)
deriving DecidableEq, Repr

/-- Go `ResponseWriter.WriteHeader`: the first call commits status and headers, a
later one is ignored. -/
def ResponseWriter.WriteHeader (w : ResponseWriter) (code : Int) : ResponseWriter :=
  if w.wroteHeader then w
  else { w with wroteHeader := true, status := code, sentHeader := w.header }

/-- Go `ResponseWriter.Write`: an implicit `WriteHeader(200)` when nothing was
committed, then the bytes go out; returns the error of the connection. -/
def ResponseWriter.Write (w : ResponseWriter) (b : List UInt8) :
    ResponseWriter × Option GoError :=
  let w1 := if w.wroteHeader then w else w.WriteHeader 200
  match w1.writeResults with
  | [] => ({ w1 with body := w1.body ++ b }, none)
  | r :: rs => ({ w1 with body := w1.body ++ b, writeResults := rs }, r)

/-- Loop of Go `io.Copy(resp, body)` over the chunks still to be read. -/
def copyChunks (readErr : Option GoError) :
    ResponseWriter → List (List UInt8) → ResponseWriter × Option GoError
  | w, [] => (w, readErr)
  | w, c :: cs =>
    if c.isEmpty then copyChunks readErr w cs
    else
      let r := w.Write c
      match r.2 with
      | some ew => (r.1, some ew)
      | none => copyChunks readErr r.1 cs

/-- Go `io.Copy(resp, xrdResp.Body)`: the writer afterwards and the error returned. -/
def ioCopy (w : ResponseWriter) (b : Body) : ResponseWriter × Option GoError :=
  copyChunks b.readErr w b.chunks

/-! ## Proxy handler -/

/-- Everything `proxyOrigin` leaves behind: package state, response writer, the request
object after the in-place rewrite of its URL, the requests handed to
`transport.RoundTrip` (in order), the log lines, and the backend body (closed by the
deferred call) when there was a backend response. -/
structure Outcome (α : Type) where
  pkg : Pkg α
  resp : ResponseWriter
  req : Request
  roundTrips : List Request
  log : List LogEntry
  xrdBody : Option Body

/-- The first three statements of `proxyOrigin`: `req.URL` is a pointer, so the
assignments through `url` change the request itself. -/
def rewriteURL (cfg : Params) (req : Request) : Request :=
  { req with URL := { req.URL with
      Scheme := "https",
      Host := cfg.Server_Hostname ++ ":" ++ Itoa cfg.Xrootd_Port } }

/-- Fixed body of the 503 answer. -/
def unreachableBody : List UInt8 := bytesOf "Failed to connect to local xrootd instance"

/-- Go `proxyOrigin(resp, req)`. `RoundTrip` is `(*http.Transport).RoundTrip`, called on
the (possibly nil) transport the package variable points to. -/
def proxyOrigin {α : Type} (cfg : Params) (dflt : Transport α)
    (RoundTrip : Option (Transport α) → Request → Except GoError Response)
    (s : Pkg α) (resp : ResponseWriter) (req : Request) : Outcome α :=
  let req1 := rewriteURL cfg req
  let log1 : List LogEntry := [⟨.debug, "Will proxy request to URL", none⟩]
  -- transport = getTransport()
  let r := getTransport dflt s
  let s1 : Pkg α := { r.2 with transport := r.1 }
  -- xrdResp, err := transport.RoundTrip(req)
  match RoundTrip (s1.deref s1.transport) req1 with
  | .error err =>
    let log2 := log1 ++ [⟨.info, "Failed to talk to xrootd service:", some err⟩]
    let resp1 := resp.WriteHeader 503
    let w := resp1.Write unreachableBody
    let log3 := match w.2 with
      | some werr => log2 ++ [⟨.info, "Failed to write response to client:", some werr⟩]
      | none => log2
    { pkg := s1, resp := w.1, req := req1, roundTrips := [req1], log := log3,
      xrdBody := none }
  | .ok xrdResp =>
    -- utils.CopyHeader(resp.Header(), xrdResp.Header)
    let resp1 := { resp with header := CopyHeader resp.header xrdResp.Header }
    let resp2 := resp1.WriteHeader xrdResp.StatusCode
    let c := ioCopy resp2 xrdResp.Body
    let log2 := match c.2 with
      | some cerr => log1 ++
          [⟨.warning, "Failed to copy response body from Xrootd to remote cache:", some cerr⟩]
      | none => log1
    -- defer xrdResp.Body.Close()
    { pkg := s1, resp := c.1, req := req1, roundTrips := [req1], log := log2,
      xrdBody := some { xrdResp.Body with closed := true } }

/-! ## Reverse-connection dispatcher -/

/-- Type of an HTTP handler of this package. -/
abbrev HandlerFunc (α : Type) := Pkg α → ResponseWriter → Request → Outcome α

/-- The value `srv` built for one listener, with the result of `srv.Serve(listener)`
once that call has returned. -/
structure Server (α : Type) where
  Handler : HandlerFunc α
  listener : Nat
  serveResult : Option (Option GoError)

/-- Where the fan-in goroutine stands: on its way to the `select`, blocked in it,
having taken the `ctx.Done()` case (about to `return`), or returned. -/
inductive PC where
  | running
  | parked
  | returning
  | exited
deriving DecidableEq, Repr

/-- Where the goroutine of a one-shot server stands: inside `srv.Serve(listener)`;
past the assignment `err = srv.Serve(listener)`; past the test
`!errors.Is(err, net.ErrClosed)` with the log call still to make; or finished. -/
inductive Goroutine where
  | serving
  | assigned
  | logging
  | done
deriving DecidableEq, Repr

/-- State of the task passed to `egrp.Go` and of what it shares with its environment:
`cancelled` tells whether `ctx.Done()` is closed, `sendq` holds the listeners whose
senders are blocked on the unbuffered `listenerChan` (oldest first), `err` is the named
result of the closure (the one variable all one-shot goroutines assign and read),
`result` the value returned to the task group, `tasks` the goroutines of the servers,
in the order of `servers`. -/
structure FanIn (α : Type) where
  pc : PC
  cancelled : Bool
  sendq : List Nat
  servers : List (Server α)
  err : Option GoError
  result : Option (Option GoError)
  log : List LogEntry
  tasks : List Goroutine

/-- State in which `egrp.Go` starts the task. -/
def FanIn.init (α : Type) : FanIn α :=
  { pc := .running, cancelled := false, sendq := [], servers := [], err := none,
    result := none, log := [], tasks := [] }

/-- Atomic moves of the fan-in goroutine, of the one-shot goroutines and of the
environment. -/
inductive Action where
  /-- the parent context is cancelled -/
  | cancel
  /-- a polling task sends a listener on `listenerChan` -/
  | offer (l : Nat)
  /-- the `select` takes `<-ctx.Done()` -/
  | selectDone
  /-- the `select` takes `listener := <-listenerChan` -/
  | selectRecv
  /-- the `select` finds no case ready and blocks -/
  | park
  /-- the naked `return` after the `ctx.Done()` case -/
  | ret
  /-- `srv.Serve(listener)` of the i-th server returns `e`, which its goroutine stores
  in `err` -/
  | serveReturn (i : Nat) (e : Option GoError)
  /-- the goroutine of the i-th server evaluates `!errors.Is(err, net.ErrClosed)` -/
  | serveTest (i : Nat)
  /-- the goroutine of the i-th server calls `log.Errorln(..., err)` -/
  | serveLog (i : Nat)
deriving DecidableEq, Repr

/-- What the handler of the one-shot servers reads from its surroundings: the
configuration, the default transport of `config.GetTransport()` and the behaviour of
`RoundTrip`. -/
structure Env (α : Type) where
  cfg : Params
  dflt : Transport α
  RoundTrip : Option (Transport α) → Request → Except GoError Response

/-- Body of the `listener` case: build `srv` with `Handler: http.HandlerFunc(proxyOrigin)`
and start its goroutine. -/
def dispatch {α : Type} (env : Env α) (s : FanIn α) (l : Nat) : FanIn α :=
  { s with servers := s.servers ++
             [{ Handler := proxyOrigin env.cfg env.dflt env.RoundTrip, listener := l,
                serveResult := none }],
           tasks := s.tasks ++ [.serving],
           pc := .running }

/-- One atomic move; `none` when the move is not possible in the state. -/
def step {α : Type} (env : Env α) (s : FanIn α) : Action → Option (FanIn α)
  | .cancel =>
    -- closing ctx.Done() wakes a goroutine blocked in the select on that case
    some { s with cancelled := true, pc := if s.pc = .parked then .returning else s.pc }
  | .offer l =>
    -- a blocked receiver takes the value at once, otherwise the sender queues up
    if s.pc = .parked then some (dispatch env s l)
    else some { s with sendq := s.sendq ++ [l] }
  | .selectDone =>
    if s.pc = .running ∧ s.cancelled = true then some { s with pc := .returning } else none
  | .selectRecv =>
    if s.pc = .running then
      match s.sendq with
      | [] => none
      | l :: rest => some (dispatch env { s with sendq := rest } l)
    else none
  | .park =>
    if s.pc = .running ∧ s.cancelled = false ∧ s.sendq = [] then some { s with pc := .parked }
    else none
  | .ret =>
    if s.pc = .returning then some { s with pc := .exited, result := some s.err } else none
  | .serveReturn i e =>
    match s.servers.get? i with
    | none => none
    | some srv =>
      match srv.serveResult with
      | some _ => none
      | none =>
        -- err = srv.Serve(listener): `err` is the named result of the enclosing closure
        some { s with servers := modifyAt (fun x => { x with serveResult := some e }) i s.servers,
                      err := e,
                      tasks := modifyAt (fun _ => .assigned) i s.tasks }
  | .serveTest i =>
    match s.tasks.get? i with
    | some .assigned =>
      -- if !errors.Is(err, net.ErrClosed): reads the variable as it is now
      if !errorsIs s.err (some .ErrClosed) then
        some { s with tasks := modifyAt (fun _ => .logging) i s.tasks }
      else some { s with tasks := modifyAt (fun _ => .done) i s.tasks }
    | _ => none
  | .serveLog i =>
    match s.tasks.get? i with
    | some .logging =>
      -- log.Errorln("Failed to serve reverse connection:", err): reads it again
      some { s with log := s.log ++ [⟨.error, "Failed to serve reverse connection:", s.err⟩],
                    tasks := modifyAt (fun _ => .done) i s.tasks }
    | _ => none

/-- A sequence of moves. -/
def run {α : Type} (env : Env α) : FanIn α → List Action → Option (FanIn α)
  | s, [] => some s
  | s, a :: as =>
    match step env s a with
    | none => none
    | some s1 => run env s1 as

/-- Listeners sent on the channel during a sequence of moves, in order. -/
def offered : List Action → List Nat
  | [] => []
  | .offer l :: as => l :: offered as
  | _ :: as => offered as

/-- The registration loop `for cnt := 0; cnt < 5; cnt += 1`: `monitor k` is what the
call number `k` of `broker.LaunchRequestMonitor` returns. Result: the value of `err`
when the loop is left and the number of calls made. -/
def registerLoop (monitor : Nat → Option GoError) (cnt : Nat) : Option GoError × Nat :=
  if cnt < 5 then
    match monitor cnt with
    | some e => (some e, cnt + 1)
    | none => registerLoop monitor (cnt + 1)
  else (none, cnt)
termination_by 5 - cnt
decreasing_by omega

/-- What `LaunchBrokerListener` leaves behind: its result `err`, the number of
registration calls made, and the task handed to `egrp.Go` (if any). -/
structure Launched (α : Type) where
  err : Option GoError
  attempts : Nat
  task : Option (FanIn α)

/-- Go `LaunchBrokerListener(ctx, egrp)`. -/
def LaunchBrokerListener {α : Type} (monitor : Nat → Option GoError) : Launched α :=
  let r := registerLoop monitor 0
  match r.1 with
  | some e => { err := some e, attempts := r.2, task := none }
  | none => { err := none, attempts := r.2, task := some (FanIn.init α) }

/-- One-shot servers existing after the moves `as` of a launched dispatcher: none when no
task was started, or when `as` is not a possible sequence of moves. -/
def serversAfter {α : Type} (env : Env α) (d : Launched α) (as : List Action) :
    List (Server α) :=
  match d.task with
  | none => []
  | some t =>
    match run env t as with
    | none => []
    | some s => s.servers

/-- Listeners of the one-shot servers created so far, in creation order. -/
def FanIn.listeners {α : Type} (s : FanIn α) : List Nat :=
  s.servers.map (fun srv => srv.listener)

/-! ## Sample inputs -/

/-- A sample configuration. -/
def sampleParams : Params := { Server_Hostname := "origin.example.org", Xrootd_Port := 8443 }

/-- A default transport whose own dial function honours the requested address. -/
def sampleTransport : Transport Unit :=
  { base := (), DialContext := fun _ ctx network addr => ⟨ctx, network, addr⟩ }

/-- The response writer as the HTTP server hands it to a handler. -/
def freshWriter : ResponseWriter :=
  { header := [], wroteHeader := false, status := 0, sentHeader := [], body := [],
    writeResults := [] }

/-- The request `GET /foo?x=1` as a one-shot server receives it. -/
def sampleRequest : Request :=
  { Method := "GET",
    URL := { Scheme := "", Opaque := "", User := none, Host := "", Path := "/foo",
             RawPath := "", OmitHost := false, ForceQuery := false, RawQuery := "x=1",
             Fragment := "", RawFragment := "" },
    Proto := "HTTP/1.1", Header := [("Accept", ["*/*"])], Body := [], ContentLength := 0,
    Host := "origin.example.org", RemoteAddr := "192.0.2.7:52100", RequestURI := "/foo?x=1" }

/-- A backend that cannot be reached. -/
def unreachableBackend (_ : Option (Transport Unit)) (_ : Request) : Except GoError Response :=
  .error (.other "dial tcp 127.0.0.1:8443: connect: connection refused")

/-- A backend answering 200 with header `X-Test: yes` and body `hello`, read in two chunks. -/
def helloBackend (_ : Option (Transport Unit)) (_ : Request) : Except GoError Response :=
  .ok { StatusCode := 200, Header := [("X-Test", ["yes"])],
        Body := { chunks := [bytesOf "hel", bytesOf "lo"], readErr := none, closed := false } }

/-- Surroundings used in the examples. -/
def sampleEnv : Env Unit :=
  { cfg := sampleParams, dflt := sampleTransport, RoundTrip := helloBackend }

/-- A broker whose third registration fails. -/
def thirdFails (k : Nat) : Option GoError :=
  if k = 2 then some (.other "broker unavailable") else none

/-! ## Facts about the transport getter -/

theorem getTransport_init {α : Type} (dflt : Transport α) :
    getTransport dflt (Pkg.init α) = (some 0, builtPkg dflt) := by
  simp [getTransport, buildTransport, Pkg.init, builtPkg, modifyAt]

theorem getTransport_built {α : Type} (dflt : Transport α) :
    getTransport dflt (builtPkg dflt) = (some 0, builtPkg dflt) := by
  simp [getTransport, builtPkg]

theorem runCall_init {α : Type} (dflt : Transport α) (c : Call) :
    runCall dflt (Pkg.init α) c = (some 0, builtPkg dflt) := by
  cases c
  · simp [runCall, getTransport_init]
  · simp [runCall, getTransport_init]
    rfl

theorem runCall_built {α : Type} (dflt : Transport α) (c : Call) :
    runCall dflt (builtPkg dflt) c = (some 0, builtPkg dflt) := by
  cases c
  · simp [runCall, getTransport_built]
  · simp [runCall, getTransport_built]
    rfl

theorem runCalls_built {α : Type} (dflt : Transport α) (cs : List Call) :
    runCalls dflt (builtPkg dflt) cs = (List.replicate cs.length (some 0), builtPkg dflt) := by
  induction cs with
  | nil => rfl
  | cons c cs ih => simp [runCalls, runCall_built, ih, List.replicate_succ]

theorem runCalls_init {α : Type} (dflt : Transport α) (c : Call) (cs : List Call) :
    runCalls dflt (Pkg.init α) (c :: cs)
      = (List.replicate (cs.length + 1) (some 0), builtPkg dflt) := by
  simp [runCalls, runCall_init, runCalls_built, List.replicate_succ]

theorem getTransport_done {α : Type} (dflt : Transport α) (s : Pkg α)
    (h : s.onceTransport = true) : getTransport dflt s = (s.transport, s) := by
  simp [getTransport, h]

/-- C8: whatever sequence of calls is made from program start, bare or with the
result assigned back to the package variable, every call returns the same pointer, the
state after all calls is the state after the first one, and that state holds exactly
one transport: the copy of the default transport with the forced dial function. -/
theorem getTransport_constructs_once {α : Type} (dflt : Transport α) (c : Call)
    (cs : List Call) :
    (runCalls dflt (Pkg.init α) (c :: cs)).1 = List.replicate (cs.length + 1) (some 0)
    ∧ (runCalls dflt (Pkg.init α) (c :: cs)).2 = (runCall dflt (Pkg.init α) c).2
    ∧ (runCall dflt (Pkg.init α) c).2.heap = [{ dflt with DialContext := forcedDial }]
    ∧ (runCall dflt (Pkg.init α) c).2.transport = some 0
    ∧ (runCall dflt (Pkg.init α) c).2.onceTransport = true := by
  rw [runCalls_init, runCall_init]
  exact ⟨rfl, rfl, rfl, rfl, rfl⟩

/-- C7: every pointer returned by a sequence of calls of the getter points to a
transport whose dial function, whatever network and address it is asked for, dials
network "tcp" at "localhost:" followed by the decimal `param.Xrootd_Port`. -/
theorem dial_target_fixed {α : Type} (dflt : Transport α) (c : Call) (cs : List Call)
    (p : Option Nat) (hp : p ∈ (runCalls dflt (Pkg.init α) (c :: cs)).1)
    (cfg : Params) (ctx : Nat) (network addr : String) :
    ∃ t, (runCalls dflt (Pkg.init α) (c :: cs)).2.deref p = some t
      ∧ t.DialContext cfg ctx network addr
          = { ctx := ctx, network := "tcp",
              address := "localhost:" ++ Itoa cfg.Xrootd_Port } := by
  rw [runCalls_init] at hp ⊢
  have hp0 : p = some 0 := List.eq_of_mem_replicate hp
  subst hp0
  exact ⟨{ dflt with DialContext := forcedDial }, rfl, rfl⟩

theorem dial_target_fixed_witness :
    ∃ t, (runCalls sampleTransport (Pkg.init Unit) [.assign, .get]).2.deref (some 0) = some t
      ∧ t.DialContext sampleParams 7 "udp" "cache.example.com:443"
          = { ctx := 7, network := "tcp", address := "localhost:8443" } := by
  obtain ⟨t, h1, h2⟩ := dial_target_fixed sampleTransport .assign [.get] (some 0)
    (by simp [runCalls_init]) sampleParams 7 "udp" "cache.example.com:443"
  exact ⟨t, h1, h2.trans (by decide)⟩

/-- C9: the one request handed to `RoundTrip` has scheme "https" and host
`Server_Hostname:Xrootd_Port`, whatever the inbound request carried there, and the
method, path, query, headers and body of the inbound request. -/
theorem proxyOrigin_rewrites_target {α : Type} (cfg : Params) (dflt : Transport α)
    (RoundTrip : Option (Transport α) → Request → Except GoError Response)
    (s : Pkg α) (resp : ResponseWriter) (req : Request) :
    ∃ r, (proxyOrigin cfg dflt RoundTrip s resp req).roundTrips = [r]
      ∧ r.URL.Scheme = "https"
      ∧ r.URL.Host = cfg.Server_Hostname ++ ":" ++ Itoa cfg.Xrootd_Port
      ∧ r.Method = req.Method
      ∧ r.URL.Path = req.URL.Path
      ∧ r.URL.RawPath = req.URL.RawPath
      ∧ r.URL.RawQuery = req.URL.RawQuery
      ∧ r.Header = req.Header
      ∧ r.Body = req.Body := by
  refine ⟨rewriteURL cfg req, ?_, rfl, rfl, rfl, rfl, rfl, rfl, rfl, rfl⟩
  unfold proxyOrigin
  dsimp only
  split <;> rfl

/-! ## Facts about the response writer and the header copy -/

theorem write_committed (w : ResponseWriter) (b : List UInt8) (h : w.wroteHeader = true) :
    (w.Write b).1.wroteHeader = true ∧ (w.Write b).1.status = w.status
    ∧ (w.Write b).1.sentHeader = w.sentHeader ∧ (w.Write b).1.header = w.header
    ∧ (w.Write b).1.body = w.body ++ b := by
  unfold ResponseWriter.Write
  simp only [h, if_true]
  cases w.writeResults <;> simp [h]

theorem copyChunks_ok (readErr : Option GoError) (cs : List (List UInt8)) :
    ∀ w : ResponseWriter, w.wroteHeader = true → (copyChunks readErr w cs).2 = none →
      (copyChunks readErr w cs).1.wroteHeader = true
      ∧ (copyChunks readErr w cs).1.status = w.status
      ∧ (copyChunks readErr w cs).1.sentHeader = w.sentHeader
      ∧ (copyChunks readErr w cs).1.header = w.header
      ∧ (copyChunks readErr w cs).1.body = w.body ++ cs.flatten := by
  induction cs with
  | nil => intro w h _; simp [copyChunks, h]
  | cons c cs ih =>
    intro w h hok
    unfold copyChunks at hok ⊢
    by_cases hc : c.isEmpty = true
    · simp only [hc, if_true] at hok ⊢
      have hnil : c = [] := List.isEmpty_iff.mp hc
      obtain ⟨h1, h2, h3, h4, h5⟩ := ih w h hok
      exact ⟨h1, h2, h3, h4, by simp [h5, hnil]⟩
    · simp only [hc] at hok ⊢
      obtain ⟨g1, g2, g3, g4, g5⟩ := write_committed w c h
      cases hw : (w.Write c).2 with
      | some ew => simp [hw] at hok
      | none =>
        simp only [hw] at hok ⊢
        obtain ⟨h1, h2, h3, h4, h5⟩ := ih (w.Write c).1 g1 hok
        exact ⟨h1, h2.trans g2, h3.trans g3, h4.trans g4, by simp [h5, g5]⟩

theorem values_Add_self (h : Header) (k v : String) : v ∈ (h.Add k v).values k := by
  induction h with
  | nil => simp [Header.Add, Header.values, List.lookup]
  | cons kv rest ih =>
    obtain ⟨k0, vs⟩ := kv
    unfold Header.Add
    by_cases hk : k0 = k
    · subst hk
      simp [Header.values, List.lookup]
    · have hne : (k == k0) = false := by simpa using fun h => hk h.symm
      simp only [hk, if_false]
      simpa [Header.values, List.lookup, hne] using ih

theorem values_Add_mono (h : Header) (k v k1 w : String) (hw : w ∈ h.values k1) :
    w ∈ (h.Add k v).values k1 := by
  induction h with
  | nil => simp [Header.values, List.lookup] at hw
  | cons kv rest ih =>
    obtain ⟨k0, vs⟩ := kv
    unfold Header.Add
    by_cases hk : k0 = k
    · subst hk
      by_cases h1 : k1 = k0
      · subst h1
        simp [Header.values, List.lookup] at hw ⊢
        exact Or.inl hw
      · have hne : (k1 == k0) = false := by simpa using h1
        simpa [Header.values, List.lookup, hne] using hw
    · simp only [hk, if_false]
      by_cases h1 : k1 = k0
      · subst h1
        simpa [Header.values, List.lookup] using hw
      · have hne : (k1 == k0) = false := by simpa using h1
        simp only [Header.values, List.lookup, hne] at hw ⊢
        exact ih hw

theorem values_addAll_mono (k : String) (vs : List String) (k1 w : String) :
    ∀ d : Header, w ∈ d.values k1 →
      w ∈ (vs.foldl (fun d1 v => Header.Add d1 k v) d).values k1 := by
  induction vs with
  | nil => intro d h; simpa using h
  | cons v vs ih => intro d h; exact ih _ (values_Add_mono d k v k1 w h)

theorem values_addAll_mem (k : String) (vs : List String) (w : String) (hw : w ∈ vs) :
    ∀ d : Header, w ∈ (vs.foldl (fun d1 v => Header.Add d1 k v) d).values k := by
  induction vs with
  | nil => simp at hw
  | cons v vs ih =>
    intro d
    rcases List.mem_cons.mp hw with h | h
    · subst h
      exact values_addAll_mono k vs k w _ (values_Add_self d k w)
    · exact ih h _

theorem values_CopyHeader_mono (src : Header) (k1 w : String) :
    ∀ dst : Header, w ∈ dst.values k1 → w ∈ (CopyHeader dst src).values k1 := by
  induction src with
  | nil => intro dst h; simpa [CopyHeader] using h
  | cons kv rest ih =>
    intro dst h
    have := ih _ (values_addAll_mono kv.1 kv.2 k1 w dst h)
    simpa [CopyHeader] using this

theorem values_CopyHeader_mem (src : Header) (kv : String × List String) (hkv : kv ∈ src)
    (w : String) (hw : w ∈ kv.2) :
    ∀ dst : Header, w ∈ (CopyHeader dst src).values kv.1 := by
  induction src with
  | nil => simp at hkv
  | cons kv0 rest ih =>
    intro dst
    rcases List.mem_cons.mp hkv with h | h
    · subst h
      have := values_CopyHeader_mono rest kv.1 w _ (values_addAll_mem kv.1 kv.2 w hw dst)
      simpa [CopyHeader] using this
    · have := ih h (kv0.2.foldl (fun d1 v => Header.Add d1 kv0.1 v) dst)
      simpa [CopyHeader] using this

/-! ## The proxy handler -/

/-- C1: when `RoundTrip` on the rewritten request returns an error, the handler, given a
response writer on which nothing was written yet, commits status 503, passes exactly the
bytes of `Failed to connect to local xrootd instance` as body, has called `RoundTrip`
once, and has added no header: the header map and the headers sent are those the
writer had; there is no backend response whose body could be copied. -/
theorem proxyOrigin_backend_unreachable {α : Type} (cfg : Params) (dflt : Transport α)
    (RoundTrip : Option (Transport α) → Request → Except GoError Response)
    (s : Pkg α) (resp : ResponseWriter) (req : Request) (e : GoError)
    (hfresh : resp.wroteHeader = false) (hbody : resp.body = [])
    (herr : RoundTrip ((runCall dflt s .assign).2.deref (runCall dflt s .assign).2.transport)
        (rewriteURL cfg req) = .error e) :
    (proxyOrigin cfg dflt RoundTrip s resp req).resp.wroteHeader = true
    ∧ (proxyOrigin cfg dflt RoundTrip s resp req).resp.status = 503
    ∧ (proxyOrigin cfg dflt RoundTrip s resp req).resp.body
        = bytesOf "Failed to connect to local xrootd instance"
    ∧ (proxyOrigin cfg dflt RoundTrip s resp req).roundTrips = [rewriteURL cfg req]
    ∧ (proxyOrigin cfg dflt RoundTrip s resp req).resp.header = resp.header
    ∧ (proxyOrigin cfg dflt RoundTrip s resp req).resp.sentHeader = resp.header
    ∧ (proxyOrigin cfg dflt RoundTrip s resp req).xrdBody = none := by
  have hw : (resp.WriteHeader 503).wroteHeader = true := by
    simp [ResponseWriter.WriteHeader, hfresh]
  obtain ⟨g1, g2, g3, g4, g5⟩ := write_committed (resp.WriteHeader 503) unreachableBody hw
  have hrun : proxyOrigin cfg dflt RoundTrip s resp req
      = { pkg := (runCall dflt s .assign).2,
          resp := ((resp.WriteHeader 503).Write unreachableBody).1,
          req := rewriteURL cfg req, roundTrips := [rewriteURL cfg req],
          log := (match ((resp.WriteHeader 503).Write unreachableBody).2 with
            | some werr =>
              [⟨.debug, "Will proxy request to URL", none⟩]
                ++ [⟨.info, "Failed to talk to xrootd service:", some e⟩]
                ++ [⟨.info, "Failed to write response to client:", some werr⟩]
            | none =>
              [⟨.debug, "Will proxy request to URL", none⟩]
                ++ [⟨.info, "Failed to talk to xrootd service:", some e⟩]),
          xrdBody := none } := by
    unfold proxyOrigin
    dsimp only
    simp only [runCall] at herr
    rw [herr]
    rfl
  rw [hrun]
  refine ⟨g1, ?_, ?_, rfl, ?_, ?_, rfl⟩
  · exact g2.trans (by simp [ResponseWriter.WriteHeader, hfresh])
  · exact g5.trans (by simp [ResponseWriter.WriteHeader, hfresh, hbody, unreachableBody])
  · exact g4.trans (by simp [ResponseWriter.WriteHeader, hfresh])
  · exact g3.trans (by simp [ResponseWriter.WriteHeader, hfresh])

theorem proxyOrigin_backend_unreachable_witness :
    (proxyOrigin sampleParams sampleTransport unreachableBackend (Pkg.init Unit) freshWriter
        sampleRequest).resp.wroteHeader = true
    ∧ (proxyOrigin sampleParams sampleTransport unreachableBackend (Pkg.init Unit) freshWriter
        sampleRequest).resp.status = 503
    ∧ (proxyOrigin sampleParams sampleTransport unreachableBackend (Pkg.init Unit) freshWriter
        sampleRequest).resp.body = bytesOf "Failed to connect to local xrootd instance"
    ∧ (proxyOrigin sampleParams sampleTransport unreachableBackend (Pkg.init Unit) freshWriter
        sampleRequest).roundTrips = [rewriteURL sampleParams sampleRequest]
    ∧ (proxyOrigin sampleParams sampleTransport unreachableBackend (Pkg.init Unit) freshWriter
        sampleRequest).resp.header = []
    ∧ (proxyOrigin sampleParams sampleTransport unreachableBackend (Pkg.init Unit) freshWriter
        sampleRequest).resp.sentHeader = []
    ∧ (proxyOrigin sampleParams sampleTransport unreachableBackend (Pkg.init Unit) freshWriter
        sampleRequest).xrdBody = none :=
  proxyOrigin_backend_unreachable sampleParams sampleTransport unreachableBackend
    (Pkg.init Unit) freshWriter sampleRequest _ rfl rfl rfl

/-- C2: when `RoundTrip` succeeds with status S, headers H and body B, and `io.Copy`
returns no error, the handler, given a response writer on which nothing was written
yet, commits exactly status S, sends with it a header set holding every value of every
header of H (the copy precedes the status), and passes exactly the bytes of B as body. -/
theorem proxyOrigin_relays_response {α : Type} (cfg : Params) (dflt : Transport α)
    (RoundTrip : Option (Transport α) → Request → Except GoError Response)
    (s : Pkg α) (resp : ResponseWriter) (req : Request) (xrd : Response)
    (hfresh : resp.wroteHeader = false) (hbody : resp.body = [])
    (hok : RoundTrip ((runCall dflt s .assign).2.deref (runCall dflt s .assign).2.transport)
        (rewriteURL cfg req) = .ok xrd)
    (hcopy : (ioCopy (ResponseWriter.WriteHeader
        { resp with header := CopyHeader resp.header xrd.Header } xrd.StatusCode)
        xrd.Body).2 = none) :
    (proxyOrigin cfg dflt RoundTrip s resp req).resp.wroteHeader = true
    ∧ (proxyOrigin cfg dflt RoundTrip s resp req).resp.status = xrd.StatusCode
    ∧ (∀ kv ∈ xrd.Header, ∀ v ∈ kv.2,
        v ∈ (proxyOrigin cfg dflt RoundTrip s resp req).resp.sentHeader.values kv.1)
    ∧ (proxyOrigin cfg dflt RoundTrip s resp req).resp.body = xrd.Body.bytes
    ∧ (proxyOrigin cfg dflt RoundTrip s resp req).roundTrips = [rewriteURL cfg req] := by
  have hw : (ResponseWriter.WriteHeader
      { resp with header := CopyHeader resp.header xrd.Header } xrd.StatusCode).wroteHeader
        = true := by
    simp [ResponseWriter.WriteHeader, hfresh]
  obtain ⟨g1, g2, g3, _, g5⟩ := copyChunks_ok xrd.Body.readErr xrd.Body.chunks _ hw hcopy
  have hrun : (proxyOrigin cfg dflt RoundTrip s resp req).resp
        = (ioCopy (ResponseWriter.WriteHeader
            { resp with header := CopyHeader resp.header xrd.Header } xrd.StatusCode)
            xrd.Body).1
      ∧ (proxyOrigin cfg dflt RoundTrip s resp req).roundTrips = [rewriteURL cfg req] := by
    unfold proxyOrigin
    dsimp only
    simp only [runCall] at hok
    rw [hok]
    exact ⟨rfl, rfl⟩
  rw [hrun.1]
  refine ⟨g1, ?_, ?_, ?_, hrun.2⟩
  · exact g2.trans (by simp [ResponseWriter.WriteHeader, hfresh])
  · intro kv hkv v hv
    have hsent : (ioCopy (ResponseWriter.WriteHeader
        { resp with header := CopyHeader resp.header xrd.Header } xrd.StatusCode)
        xrd.Body).1.sentHeader = CopyHeader resp.header xrd.Header :=
      g3.trans (by simp [ResponseWriter.WriteHeader, hfresh])
    rw [hsent]
    exact values_CopyHeader_mem xrd.Header kv hkv v hv resp.header
  · exact g5.trans (by simp [ResponseWriter.WriteHeader, hfresh, hbody, Body.bytes])

theorem proxyOrigin_relays_response_witness :
    (proxyOrigin sampleParams sampleTransport helloBackend (Pkg.init Unit) freshWriter
        sampleRequest).resp.status = 200
    ∧ "yes" ∈ (proxyOrigin sampleParams sampleTransport helloBackend (Pkg.init Unit)
        freshWriter sampleRequest).resp.sentHeader.values "X-Test"
    ∧ (proxyOrigin sampleParams sampleTransport helloBackend (Pkg.init Unit) freshWriter
        sampleRequest).resp.body = bytesOf "hello" := by
  obtain ⟨_, h2, h3, h4, _⟩ := proxyOrigin_relays_response sampleParams sampleTransport
    helloBackend (Pkg.init Unit) freshWriter sampleRequest
    { StatusCode := 200, Header := [("X-Test", ["yes"])],
      Body := { chunks := [bytesOf "hel", bytesOf "lo"], readErr := none, closed := false } }
    rfl rfl rfl (by decide)
  exact ⟨h2, h3 ("X-Test", ["yes"]) (by simp) "yes" (by simp), h4.trans (by decide)⟩

/-! ## The dispatcher -/

theorem modifyAt_listener {α : Type} (e : Option GoError) (l : List (Server α)) :
    ∀ i : Nat, (modifyAt (fun x : Server α => { x with serveResult := some e }) i l).map
      (fun srv => srv.listener) = l.map (fun srv => srv.listener) := by
  induction l with
  | nil => intro i; simp [modifyAt]
  | cons x xs ih =>
    intro i
    cases i with
    | zero => simp [modifyAt]
    | succ i => simp [modifyAt, ih i]

theorem modifyAt_handler {α : Type} (e : Option GoError) (H : HandlerFunc α)
    (l : List (Server α)) (hl : ∀ srv ∈ l, srv.Handler = H) :
    ∀ i : Nat, ∀ srv ∈ modifyAt (fun x : Server α => { x with serveResult := some e }) i l,
      srv.Handler = H := by
  induction l with
  | nil => intro i; simp [modifyAt]
  | cons x xs ih =>
    intro i
    have hx : x.Handler = H := hl x (List.mem_cons_self _ _)
    have hxs : ∀ srv ∈ xs, srv.Handler = H := fun srv h => hl srv (List.mem_cons_of_mem _ h)
    cases i with
    | zero =>
      intro srv hsrv
      simp only [modifyAt, List.mem_cons] at hsrv
      rcases hsrv with h | h
      · subst h; exact hx
      · exact hxs srv h
    | succ i =>
      intro srv hsrv
      simp only [modifyAt, List.mem_cons] at hsrv
      rcases hsrv with h | h
      · subst h; exact hx
      · exact ih hxs i srv h

/-- What one move preserves: a blocked receiver faces no blocked sender, the listeners
served followed by those still queued are the listeners sent so far, and every server
carries the proxy handler. -/
theorem step_invariant {α : Type} (env : Env α) (s s1 : FanIn α) (a : Action)
    (hstep : step env s a = some s1)
    (hq : s.pc = .parked → s.sendq = [])
    (hH : ∀ srv ∈ s.servers, srv.Handler = proxyOrigin env.cfg env.dflt env.RoundTrip) :
    (s1.pc = .parked → s1.sendq = [])
    ∧ s1.listeners ++ s1.sendq = s.listeners ++ s.sendq ++ offered [a]
    ∧ (∀ srv ∈ s1.servers, srv.Handler = proxyOrigin env.cfg env.dflt env.RoundTrip) := by
  cases a with
  | cancel =>
    simp only [step, Option.some.injEq] at hstep
    subst hstep
    refine ⟨?_, by simp [FanIn.listeners, offered], hH⟩
    by_cases hp : s.pc = .parked
    · simp [hp]
    · simp [hp]
  | offer l =>
    simp only [step] at hstep
    by_cases hp : s.pc = .parked
    · simp only [hp, if_true, Option.some.injEq] at hstep
      subst hstep
      refine ⟨by simp [dispatch], by simp [FanIn.listeners, dispatch, offered, hq hp], ?_⟩
      intro srv hsrv
      simp only [dispatch, List.mem_append, List.mem_singleton] at hsrv
      rcases hsrv with h | h
      · exact hH srv h
      · subst h; rfl
    · simp only [hp, if_false, Option.some.injEq] at hstep
      subst hstep
      exact ⟨fun h => absurd h hp, by simp [FanIn.listeners, offered], hH⟩
  | selectDone =>
    simp only [step] at hstep
    split at hstep
    · simp only [Option.some.injEq] at hstep
      subst hstep
      exact ⟨by simp, by simp [FanIn.listeners, offered], hH⟩
    · simp at hstep
  | selectRecv =>
    simp only [step] at hstep
    split at hstep
    · cases hsq : s.sendq with
      | nil => simp [hsq] at hstep
      | cons l rest =>
        simp only [hsq, Option.some.injEq] at hstep
        subst hstep
        refine ⟨by simp [dispatch], by simp [FanIn.listeners, dispatch, offered], ?_⟩
        intro srv hsrv
        simp only [dispatch, List.mem_append, List.mem_singleton] at hsrv
        rcases hsrv with h | h
        · exact hH srv h
        · subst h; rfl
    · simp at hstep
  | park =>
    simp only [step] at hstep
    split at hstep
    · rename_i hc
      simp only [Option.some.injEq] at hstep
      subst hstep
      exact ⟨fun _ => hc.2.2, by simp [FanIn.listeners, offered], hH⟩
    · simp at hstep
  | ret =>
    simp only [step] at hstep
    split at hstep
    · simp only [Option.some.injEq] at hstep
      subst hstep
      exact ⟨by simp, by simp [FanIn.listeners, offered], hH⟩
    · simp at hstep
  | serveReturn i e =>
    simp only [step, List.get?_eq_getElem?] at hstep
    cases hsrv : s.servers[i]? with
    | none => simp [hsrv] at hstep
    | some srv =>
      cases hres : srv.serveResult with
      | some r => simp [hsrv, hres] at hstep
      | none =>
        simp only [hsrv, hres, Option.some.injEq] at hstep
        subst hstep
        refine ⟨hq, ?_, modifyAt_handler e _ s.servers hH i⟩
        simp [FanIn.listeners, offered, modifyAt_listener]
  | serveTest i =>
    simp only [step] at hstep
    split at hstep
    · split at hstep
      · simp only [Option.some.injEq] at hstep
        subst hstep
        exact ⟨hq, by simp [FanIn.listeners, offered], hH⟩
      · simp only [Option.some.injEq] at hstep
        subst hstep
        exact ⟨hq, by simp [FanIn.listeners, offered], hH⟩
    · simp at hstep
  | serveLog i =>
    simp only [step] at hstep
    split at hstep
    · simp only [Option.some.injEq] at hstep
      subst hstep
      exact ⟨hq, by simp [FanIn.listeners, offered], hH⟩
    · simp at hstep

theorem offered_append (as bs : List Action) : offered (as ++ bs) = offered as ++ offered bs := by
  induction as with
  | nil => rfl
  | cons a as ih => cases a <;> simp [offered, ih]

theorem run_invariant {α : Type} (env : Env α) (as : List Action) :
    ∀ s s1 : FanIn α, run env s as = some s1 →
      (s.pc = .parked → s.sendq = []) →
      (∀ srv ∈ s.servers, srv.Handler = proxyOrigin env.cfg env.dflt env.RoundTrip) →
      (s1.pc = .parked → s1.sendq = [])
      ∧ s1.listeners ++ s1.sendq = s.listeners ++ s.sendq ++ offered as
      ∧ (∀ srv ∈ s1.servers, srv.Handler = proxyOrigin env.cfg env.dflt env.RoundTrip) := by
  induction as with
  | nil =>
    intro s s1 hrun hq hH
    simp only [run, Option.some.injEq] at hrun
    subst hrun
    exact ⟨hq, by simp [offered], hH⟩
  | cons a as ih =>
    intro s s1 hrun hq hH
    simp only [run] at hrun
    cases hst : step env s a with
    | none => simp [hst] at hrun
    | some s2 =>
      simp only [hst] at hrun
      obtain ⟨q2, l2, H2⟩ := step_invariant env s s2 a hst hq hH
      obtain ⟨q3, l3, H3⟩ := ih s2 s1 hrun q2 H2
      refine ⟨q3, ?_, H3⟩
      rw [l3, l2]
      have : offered (a :: as) = offered [a] ++ offered as := offered_append [a] as
      rw [this]
      simp

/-- C5: in every run of the fan-in task, the listeners of the servers created, in
creation order, followed by the listeners whose senders are still blocked on the
channel, are exactly the listeners sent, in sending order: the N listeners received are
the first N sent, each has exactly one server, in the order of reception; and every
server has `proxyOrigin` as its handler. -/
theorem servers_follow_channel_order {α : Type} (env : Env α) (as : List Action)
    (s : FanIn α) (hrun : run env (FanIn.init α) as = some s) :
    s.listeners ++ s.sendq = offered as
    ∧ s.servers.length + s.sendq.length = (offered as).length
    ∧ (∀ srv ∈ s.servers, srv.Handler = proxyOrigin env.cfg env.dflt env.RoundTrip) := by
  obtain ⟨_, hl, hH⟩ := run_invariant env as (FanIn.init α) s hrun
    (by simp [FanIn.init]) (by simp [FanIn.init])
  have hl1 : s.listeners ++ s.sendq = offered as := by
    simpa [FanIn.listeners, FanIn.init] using hl
  refine ⟨hl1, ?_, hH⟩
  have := congrArg List.length hl1
  simpa [FanIn.listeners] using this

theorem servers_follow_channel_order_witness :
    ∃ s, run sampleEnv (FanIn.init Unit)
        [.offer 3, .selectRecv, .park, .offer 5, .offer 9] = some s
      ∧ s.listeners ++ s.sendq = [3, 5, 9]
      ∧ s.listeners = [3, 5]
      ∧ s.servers.length + s.sendq.length = 3 := by
  refine ⟨_, rfl, ?_, rfl, ?_⟩
  · exact (servers_follow_channel_order sampleEnv
      [.offer 3, .selectRecv, .park, .offer 5, .offer 9] _ rfl).1
  · exact (servers_follow_channel_order sampleEnv
      [.offer 3, .selectRecv, .park, .offer 5, .offer 9] _ rfl).2.1

theorem step_serveReturn_err {α : Type} (env : Env α) (s s1 : FanIn α) (i : Nat)
    (e : Option GoError) (hstep : step env s (.serveReturn i e) = some s1) :
    s1.err = e ∧ s1.log = s.log := by
  simp only [step, List.get?_eq_getElem?] at hstep
  cases hsrv : s.servers[i]? with
  | none => simp [hsrv] at hstep
  | some srv =>
    cases hres : srv.serveResult with
    | some r => simp [hsrv, hres] at hstep
    | none =>
      simp only [hsrv, hres, Option.some.injEq] at hstep
      subst hstep
      exact ⟨rfl, rfl⟩

theorem step_serveLog_log {α : Type} (env : Env α) (s s1 : FanIn α) (i : Nat)
    (hstep : step env s (.serveLog i) = some s1) :
    s1.log = s.log ++ [⟨.error, "Failed to serve reverse connection:", s.err⟩] := by
  simp only [step] at hstep
  split at hstep
  · simp only [Option.some.injEq] at hstep
    subst hstep
    rfl
  · simp at hstep

/-- C10: the goroutine of a one-shot server stores the result of `Serve` in the
variable `err` shared by all of them and then tests and logs that variable, so what it
logs follows the last result stored, not its own. First run: `Serve` of server 0
returns an error that is not listener-closed, `Serve` of server 1 returns the
listener-closed error before server 0 makes its test, and nothing is logged at all.
Second run: `Serve` of server 0 returns the listener-closed error, `Serve` of server 1
returns another error before server 0 makes its test, and two error lines are logged,
one of them by server 0. -/
theorem serve_log_follows_shared_err :
    (∃ s, run sampleEnv (FanIn.init Unit)
        [.offer 3, .selectRecv, .offer 5, .selectRecv,
         .serveReturn 0 (some (.other "tls: bad record")),
         .serveReturn 1 (some (.wrap "accept tcp" .ErrClosed)),
         .serveTest 0, .serveTest 1] = some s
      ∧ s.servers.map (fun srv => srv.serveResult)
          = [some (some (.other "tls: bad record")),
             some (some (.wrap "accept tcp" .ErrClosed))]
      ∧ errorsIs (some (.other "tls: bad record")) (some .ErrClosed) = false
      ∧ s.tasks = [.done, .done]
      ∧ s.log = [])
    ∧ (∃ s, run sampleEnv (FanIn.init Unit)
        [.offer 3, .selectRecv, .offer 5, .selectRecv,
         .serveReturn 0 (some (.wrap "accept tcp" .ErrClosed)),
         .serveReturn 1 (some (.other "tls: bad record")),
         .serveTest 0, .serveLog 0, .serveTest 1, .serveLog 1] = some s
      ∧ s.servers.map (fun srv => srv.serveResult)
          = [some (some (.wrap "accept tcp" .ErrClosed)),
             some (some (.other "tls: bad record"))]
      ∧ errorsIs (some (.wrap "accept tcp" .ErrClosed)) (some .ErrClosed) = true
      ∧ s.tasks = [.done, .done]
      ∧ s.log = [⟨.error, "Failed to serve reverse connection:",
                    some (.other "tls: bad record")⟩,
                 ⟨.error, "Failed to serve reverse connection:",
                    some (.other "tls: bad record")⟩]) :=
  ⟨⟨_, rfl, rfl, rfl, rfl, rfl⟩, ⟨_, rfl, rfl, rfl, rfl, rfl⟩⟩

/-! ## Registration loop -/

theorem registerLoop_all_ok (monitor : Nat → Option GoError)
    (h : ∀ k, k < 5 → monitor k = none) : registerLoop monitor 0 = (none, 5) := by
  have h5 : registerLoop monitor 5 = (none, 5) := by rw [registerLoop]; simp
  have h4 : registerLoop monitor 4 = (none, 5) := by
    rw [registerLoop]; simp [h 4 (by decide), h5]
  have h3 : registerLoop monitor 3 = (none, 5) := by
    rw [registerLoop]; simp [h 3 (by decide), h4]
  have h2 : registerLoop monitor 2 = (none, 5) := by
    rw [registerLoop]; simp [h 2 (by decide), h3]
  have h1 : registerLoop monitor 1 = (none, 5) := by
    rw [registerLoop]; simp [h 1 (by decide), h2]
  rw [registerLoop]; simp [h 0 (by decide), h1]

theorem registerLoop_first_failure (monitor : Nat → Option GoError) (k : Nat) (e : GoError)
    (hk : k < 5) (hpre : ∀ j, j < k → monitor j = none) (hf : monitor k = some e) :
    ∀ d cnt : Nat, cnt + d = k → registerLoop monitor cnt = (some e, k + 1) := by
  intro d
  induction d with
  | zero =>
    intro cnt hc
    have hck : cnt = k := by omega
    subst hck
    rw [registerLoop]; simp [hk, hf]
  | succ d ih =>
    intro cnt hc
    have hlt : cnt < k := by omega
    have h5 : cnt < 5 := by omega
    rw [registerLoop]; simp [h5, hpre cnt hlt]
    exact ih (cnt + 1) (by omega)

theorem LaunchBrokerListener_of_failure {α : Type} (monitor : Nat → Option GoError)
    (k : Nat) (e : GoError) (hk : k < 5) (hpre : ∀ j, j < k → monitor j = none)
    (hf : monitor k = some e) :
    (LaunchBrokerListener monitor : Launched α)
      = { err := some e, attempts := k + 1, task := none } := by
  have := registerLoop_first_failure monitor k e hk hpre hf k 0 (by omega)
  simp [LaunchBrokerListener, this]

theorem LaunchBrokerListener_of_success {α : Type} (monitor : Nat → Option GoError)
    (h : ∀ k, k < 5 → monitor k = none) :
    (LaunchBrokerListener monitor : Launched α)
      = { err := none, attempts := 5, task := some (FanIn.init α) } := by
  simp [LaunchBrokerListener, registerLoop_all_ok monitor h]

/-- C4: the registration is attempted in sequence, at most 5 times. When attempt `k` is
the first to fail, with error `e`, `LaunchBrokerListener` returns `e`, has made exactly
`k + 1` attempts and has started no fan-in task, so that no one-shot server exists
whatever happens afterwards. When all 5 attempts succeed it returns nil after 5
attempts with the task started; and it returns nil only in that case. -/
theorem LaunchBrokerListener_registration {α : Type} (monitor : Nat → Option GoError) :
    (∀ k e, k < 5 → (∀ j, j < k → monitor j = none) → monitor k = some e →
        (LaunchBrokerListener monitor : Launched α).err = some e
        ∧ (LaunchBrokerListener monitor : Launched α).attempts = k + 1
        ∧ (LaunchBrokerListener monitor : Launched α).task = none
        ∧ ∀ (env : Env α) (as : List Action),
            serversAfter env (LaunchBrokerListener monitor) as = [])
    ∧ ((∀ k, k < 5 → monitor k = none) →
        (LaunchBrokerListener monitor : Launched α).err = none
        ∧ (LaunchBrokerListener monitor : Launched α).attempts = 5
        ∧ (LaunchBrokerListener monitor : Launched α).task = some (FanIn.init α))
    ∧ ((LaunchBrokerListener monitor : Launched α).err = none
        ↔ ∀ k, k < 5 → monitor k = none) := by
  refine ⟨?_, ?_, ?_⟩
  · intro k e hk hpre hf
    rw [LaunchBrokerListener_of_failure monitor k e hk hpre hf]
    exact ⟨rfl, rfl, rfl, fun _ _ => rfl⟩
  · intro h
    rw [LaunchBrokerListener_of_success monitor h]
    exact ⟨rfl, rfl, rfl⟩
  · constructor
    · intro herr
      by_contra hne
      push_neg at hne
      have hex : ∃ k, k < 5 ∧ monitor k ≠ none := hne
      classical
      have hspec := Nat.find_spec hex
      have hmin : ∀ j, j < Nat.find hex → monitor j = none := by
        intro j hj
        by_contra hj2
        exact Nat.find_min hex hj ⟨by omega, hj2⟩
      obtain ⟨e, he⟩ := Option.ne_none_iff_exists'.mp hspec.2
      rw [LaunchBrokerListener_of_failure monitor (Nat.find hex) e hspec.1 hmin he] at herr
      simp at herr
    · intro h
      rw [LaunchBrokerListener_of_success monitor h]

theorem LaunchBrokerListener_registration_witness :
    (LaunchBrokerListener thirdFails : Launched Unit).err = some (.other "broker unavailable")
    ∧ (LaunchBrokerListener thirdFails : Launched Unit).attempts = 3
    ∧ (LaunchBrokerListener thirdFails : Launched Unit).task = none
    ∧ serversAfter sampleEnv (LaunchBrokerListener thirdFails)
        [.offer 3, .selectRecv] = [] := by
  obtain ⟨h1, h2, h3, h4⟩ := (LaunchBrokerListener_registration thirdFails).1 2
    (.other "broker unavailable") (by decide)
    (by intro j hj; simp [thirdFails]; omega) (by simp [thirdFails])
  exact ⟨h1, h2, h3, h4 sampleEnv _⟩

/-! ## Cancellation and the value returned to the task group -/

/-- C3: after all 5 registrations succeeded, a run in which one one-shot server is
dispatched, its `Serve` returns the listener-closed error, and the context is then
cancelled, ends with the fan-in task returning that error, not nil, to the task group:
the goroutine of the server assigns the result of `Serve` to the named result of the
fan-in closure. -/
theorem fanIn_returns_serve_error :
    ∃ t s, (LaunchBrokerListener (fun _ => none) : Launched Unit).err = none
      ∧ (LaunchBrokerListener (fun _ => none) : Launched Unit).task = some t
      ∧ run sampleEnv t
          [.offer 7, .selectRecv, .serveReturn 0 (some (.wrap "accept tcp" .ErrClosed)),
           .cancel, .selectDone, .ret] = some s
      ∧ s.pc = .exited
      ∧ s.log = []
      ∧ s.result = some (some (.wrap "accept tcp" .ErrClosed)) := by
  have h := LaunchBrokerListener_of_success (α := Unit) (fun _ => none) (fun _ _ => rfl)
  refine ⟨FanIn.init Unit, _, ?_, ?_, rfl, rfl, rfl, rfl⟩
  · rw [h]
  · rw [h]

theorem step_after_done {α : Type} (env : Env α) (s s1 : FanIn α) (a : Action)
    (hpc : s.pc = .returning ∨ s.pc = .exited) (hstep : step env s a = some s1) :
    (s1.pc = .returning ∨ s1.pc = .exited)
    ∧ s1.listeners = s.listeners
    ∧ ((∀ i e, a ≠ .serveReturn i e) → s1.servers = s.servers) := by
  have hnp : s.pc ≠ .parked := by rcases hpc with h | h <;> simp [h]
  have hnr : s.pc ≠ .running := by rcases hpc with h | h <;> simp [h]
  cases a with
  | cancel =>
    simp only [step, hnp, if_false, Option.some.injEq] at hstep
    subst hstep
    exact ⟨hpc, rfl, fun _ => rfl⟩
  | offer l =>
    simp only [step, hnp, if_false, Option.some.injEq] at hstep
    subst hstep
    exact ⟨hpc, rfl, fun _ => rfl⟩
  | selectDone => simp [step, hnr] at hstep
  | selectRecv => simp [step, hnr] at hstep
  | park => simp [step, hnr] at hstep
  | ret =>
    simp only [step] at hstep
    split at hstep
    · simp only [Option.some.injEq] at hstep
      subst hstep
      exact ⟨Or.inr rfl, rfl, fun _ => rfl⟩
    · simp at hstep
  | serveReturn i e =>
    simp only [step, List.get?_eq_getElem?] at hstep
    cases hsrv : s.servers[i]? with
    | none => simp [hsrv] at hstep
    | some srv =>
      cases hres : srv.serveResult with
      | some r => simp [hsrv, hres] at hstep
      | none =>
        simp only [hsrv, hres, Option.some.injEq] at hstep
        subst hstep
        refine ⟨hpc, ?_, fun h => absurd rfl (h i e)⟩
        simp [FanIn.listeners, modifyAt_listener]
  | serveTest i =>
    simp only [step] at hstep
    split at hstep
    · split at hstep
      · simp only [Option.some.injEq] at hstep
        subst hstep
        exact ⟨hpc, rfl, fun _ => rfl⟩
      · simp only [Option.some.injEq] at hstep
        subst hstep
        exact ⟨hpc, rfl, fun _ => rfl⟩
    · simp at hstep
  | serveLog i =>
    simp only [step] at hstep
    split at hstep
    · simp only [Option.some.injEq] at hstep
      subst hstep
      exact ⟨hpc, rfl, fun _ => rfl⟩
    · simp at hstep

theorem run_after_done {α : Type} (env : Env α) (as : List Action) :
    ∀ s s1 : FanIn α, (s.pc = .returning ∨ s.pc = .exited) → run env s as = some s1 →
      (s1.pc = .returning ∨ s1.pc = .exited)
      ∧ s1.listeners = s.listeners
      ∧ ((∀ a ∈ as, ∀ i e, a ≠ .serveReturn i e) → s1.servers = s.servers) := by
  induction as with
  | nil =>
    intro s s1 hpc hrun
    simp only [run, Option.some.injEq] at hrun
    subst hrun
    exact ⟨hpc, rfl, fun _ => rfl⟩
  | cons a as ih =>
    intro s s1 hpc hrun
    simp only [run] at hrun
    cases hst : step env s a with
    | none => simp [hst] at hrun
    | some s2 =>
      simp only [hst] at hrun
      obtain ⟨p2, l2, v2⟩ := step_after_done env s s2 a hpc hst
      obtain ⟨p3, l3, v3⟩ := ih s2 s1 p2 hrun
      refine ⟨p3, l3.trans l2, ?_⟩
      intro hno
      rw [v3 (fun b hb => hno b (List.mem_cons_of_mem _ hb)),
        v2 (hno a (List.mem_cons_self _ _))]

/-- C6, as the code has it: once the fan-in loop has taken the `ctx.Done()` case, by
choosing it in the `select` or by being woken from the `select` by the cancellation,
no one-shot server is created any more whatever is sent on the channel afterwards: the
listeners served stay those served before. Taking the case leaves the servers
untouched, and so does everything after it except the servers' own `Serve` returning:
the loop closes or aborts none of them. -/
theorem no_dispatch_after_done_case {α : Type} (env : Env α) (s s1 s2 : FanIn α)
    (a : Action) (as : List Action)
    (hdone : a = .selectDone ∨ (a = .cancel ∧ s.pc = .parked))
    (hstep : step env s a = some s1) (hrun : run env s1 as = some s2) :
    s1.servers = s.servers
    ∧ s2.listeners = s.listeners
    ∧ (s2.pc = .returning ∨ s2.pc = .exited)
    ∧ ((∀ b ∈ as, ∀ i e, b ≠ .serveReturn i e) → s2.servers = s.servers) := by
  have h1 : s1.servers = s.servers ∧ s1.pc = .returning := by
    rcases hdone with h | ⟨h, hp⟩
    · subst h
      simp only [step] at hstep
      split at hstep
      · simp only [Option.some.injEq] at hstep
        subst hstep
        exact ⟨rfl, rfl⟩
      · simp at hstep
    · subst h
      simp only [step, hp, if_true, Option.some.injEq] at hstep
      subst hstep
      exact ⟨rfl, rfl⟩
  obtain ⟨p, l, v⟩ := run_after_done env as s1 s2 (Or.inl h1.2) hrun
  refine ⟨h1.1, ?_, p, fun hno => (v hno).trans h1.1⟩
  rw [l]
  simp [FanIn.listeners, h1.1]

theorem no_dispatch_after_done_case_witness :
    ∃ s1 s2, step sampleEnv (dispatch sampleEnv (FanIn.init Unit) 3) .cancel = some s1
      ∧ run sampleEnv s1 [.selectDone, .offer 5, .ret, .offer 9] = some s2
      ∧ s2.listeners = [3]
      ∧ s2.sendq = [5, 9]
      ∧ (s2.pc = .returning ∨ s2.pc = .exited) := by
  refine ⟨_, _, rfl, rfl, ?_, rfl, ?_⟩
  · exact (no_dispatch_after_done_case sampleEnv
      { dispatch sampleEnv (FanIn.init Unit) 3 with cancelled := true }
      _ _ .selectDone [.offer 5, .ret, .offer 9] (Or.inl rfl) rfl rfl).2.1
  · exact (no_dispatch_after_done_case sampleEnv
      { dispatch sampleEnv (FanIn.init Unit) 3 with cancelled := true }
      _ _ .selectDone [.offer 5, .ret, .offer 9] (Or.inl rfl) rfl rfl).2.2.1

/-- C6, as stated, fails: with the context cancelled before the fan-in goroutine
reaches its `select`, a listener sent on the channel after the cancellation is ready
together with `ctx.Done()`, the `select` may take it, and a one-shot server is created
for it. -/
theorem dispatch_after_cancel :
    ∃ s0 s, run sampleEnv (FanIn.init Unit) [.cancel] = some s0
      ∧ s0.cancelled = true ∧ s0.servers.length = 0
      ∧ run sampleEnv s0 [.offer 7, .selectRecv] = some s
      ∧ s.cancelled = true
      ∧ s.listeners = [7] :=
  ⟨_, _, rfl, rfl, rfl, rfl, rfl, rfl⟩

end Pelican
